import Mathlib

/-!
Shallow embedding of the Excel reconciliation engine of `src/main.py`
(repository RS-Testing-).  The Python helpers `get_excel_format_type` and
`normalize_value_for_comparison`, the engine `compare_excel_files` and the
summary computation of `generate_excel_report` are translated into
executable Lean definitions; Python cell values become the inductive
`Value`, Python floats are modelled by integer fractions, and the
`try/except` blocks become `Except`-valued cell reads.
-/

/-- Whitespace characters of Python's `str.strip` and of the regex class
backslash-s, restricted to ASCII: space, tab, newline, carriage return,
form feed and vertical tab. -/
def pyWSChar (c : Char) : Bool :=
  c = ' ' || c = '\t' || c = '\n' || c = '\r' || c = '\x0b' || c = '\x0c'

/-- Model of Python `str.lower` on one character, for the ASCII range
(the engine only compares ASCII format strings case-insensitively). -/
def charLower (ch : Char) : Char :=
  if 65 ≤ ch.toNat ∧ ch.toNat ≤ 90 then Char.ofNat (ch.toNat + 32) else ch

/-- Model of Python `str.strip`: drop whitespace from both ends. -/
def stripChars (l : List Char) : List Char :=
  ((l.dropWhile pyWSChar).reverse.dropWhile pyWSChar).reverse

/-- Model of Python `str.lower` (ASCII). -/
def lowerChars (l : List Char) : List Char :=
  l.map charLower

/-- Model of `re.sub(r'\s+', '', s)`: remove every whitespace character. -/
def removeWSChars (l : List Char) : List Char :=
  l.filter (fun c => !pyWSChar c)

/-- The cleanup pipeline of `normalize_value_for_comparison`:
`value.strip().lower()` followed by `re.sub(r'\s+', '', ...)`. -/
def cleanChars (l : List Char) : List Char :=
  removeWSChars (lowerChars (stripChars l))

/-- Decimal-digit test on a character. -/
def digChar (c : Char) : Bool :=
  decide (48 ≤ c.toNat ∧ c.toNat ≤ 57)

/-- Numeric value of a decimal digit string (most significant first). -/
def natOfDigits (l : List Char) : Nat :=
  l.foldl (fun a c => 10 * a + (c.toNat - 48)) 0

/-- Parse of a nonempty all-digit string, as Python `int` accepts after an
optional sign (ASCII digits only; underscores are not modelled). -/
def parseDigits (l : List Char) : Option Nat :=
  if l ≠ [] ∧ l.all digChar then some (natOfDigits l) else Option.none

/-- Model of Python `int(s)` on a whitespace-free string: optional sign,
then decimal digits. -/
def pyIntChars : List Char → Option Int
  | '+' :: l => (parseDigits l).map Int.ofNat
  | '-' :: l => (parseDigits l).map (fun n => -(n : Int))
  | l => (parseDigits l).map Int.ofNat

/-- Signed exponent part of a Python float literal. -/
def pyExpChars : List Char → Option Int
  | '+' :: l => (parseDigits l).map Int.ofNat
  | '-' :: l => (parseDigits l).map (fun n => -(n : Int))
  | l => (parseDigits l).map Int.ofNat

/-- A Python float, modelled exactly as the (not necessarily reduced)
fraction `num / den` that decimal parsing produces; `PyFloat.mk 1250 100`
denotes 12.5.  Fractions are kept unreduced so that every operation is a
plain integer computation. -/
structure PyFloat where
  num : Int
  den : Nat
deriving DecidableEq

/-- Mantissa of integer digits `ip` and fraction digits `fp`, as the
fraction `digits / 10 ^ |fp|`. -/
def mantissaVal (ip fp : List Char) : PyFloat :=
  PyFloat.mk (natOfDigits (ip ++ fp) : Nat) ((10 : Nat) ^ fp.length)

/-- Scale a float by `10 ^ e`. -/
def applyExp (f : PyFloat) : Int → PyFloat
  | Int.ofNat k => PyFloat.mk (f.num * ((10 : Nat) ^ k : Nat)) f.den
  | Int.negSucc k => PyFloat.mk f.num (f.den * (10 : Nat) ^ (k + 1))

/-- Model of Python `float(s)` on a whitespace-free unsigned string:
digits, an optional decimal point with fraction digits, an optional
exponent.  Python's `inf`, `nan` and underscore forms are not modelled;
the engine only reaches `float` on strings containing a dot, where those
forms are rejected by Python as well. -/
def pyFloatCore (l : List Char) : Option PyFloat :=
  let ip := l.takeWhile digChar
  let rest := l.dropWhile digChar
  match rest with
  | [] => if ip = [] then Option.none else some (PyFloat.mk (natOfDigits ip : Nat) 1)
  | '.' :: rest2 =>
    let fp := rest2.takeWhile digChar
    let rest3 := rest2.dropWhile digChar
    if ip = [] ∧ fp = [] then Option.none
    else
      match rest3 with
      | [] => some (mantissaVal ip fp)
      | 'e' :: rest4 | 'E' :: rest4 =>
        (pyExpChars rest4).map (fun e => applyExp (mantissaVal ip fp) e)
      | _ => Option.none
  | 'e' :: rest4 | 'E' :: rest4 =>
    if ip = [] then Option.none
    else (pyExpChars rest4).map (fun e => applyExp (PyFloat.mk (natOfDigits ip : Nat) 1) e)
  | _ => Option.none

/-- Model of Python `float(s)` with an optional sign. -/
def pyFloatChars : List Char → Option PyFloat
  | '+' :: l => pyFloatCore l
  | '-' :: l => (pyFloatCore l).map (fun f => PyFloat.mk (-f.num) f.den)
  | l => pyFloatCore l

/-- Does the pattern occur at the head of the haystack? -/
def listStarts : List Char → List Char → Bool
  | [], _ => true
  | _ :: _, [] => false
  | p :: ps, h :: hs => p = h && listStarts ps hs

/-- Model of Python's substring test `pat in hay`. -/
def listHas (pat : List Char) : List Char → Bool
  | [] => decide (pat = [])
  | h :: t => listStarts pat (h :: t) || listHas pat t

/-- Substring test on strings, `strHas hay pat` models Python `pat in hay`. -/
def strHas (hay pat : String) : Bool :=
  listHas pat.data hay.data

/-- A resolved Python cell value as openpyxl hands it to the engine:
`none` is Python `None`, floats are modelled by integer fractions, `date`
is an abstract datetime. -/
inductive Value where
  | none : Value
  | str : String → Value
  | int : Int → Value
  | float : PyFloat → Value
  | bool : Bool → Value
  | date : Nat → Value
deriving DecidableEq

/-- The decimal digit character for `n % 10`-style indices. -/
def digitOf (n : Nat) : Char :=
  "0123456789".data.getD n '0'

/-- Decimal digits of a natural number, with explicit fuel so that the
recursion is structural (the chain `n, n/10, ...` is strictly decreasing,
so fuel `n + 1` always suffices). -/
def natCharsAux : Nat → Nat → List Char
  | 0, _ => []
  | fuel + 1, n =>
    if n < 10 then [digitOf n]
    else natCharsAux fuel (n / 10) ++ [digitOf (n % 10)]

/-- Decimal string of a natural number (model of Python `str`). -/
def natChars (n : Nat) : List Char :=
  natCharsAux (n + 1) n

/-- Decimal string of a natural number. -/
def natStr (n : Nat) : String :=
  String.mk (natChars n)

/-- Decimal string of an integer. -/
def intStr (n : Int) : String :=
  if n < 0 then "-" ++ natStr n.natAbs else natStr n.natAbs

/-- Model of Python `str(value)`.  Strings, integers, booleans and `None`
render as Python renders them; the rendering of floats and datetimes
abstracts Python's (no claim depends on it beyond its non-blankness). -/
def pyStr : Value → String
  | Value.none => "None"
  | Value.str s => s
  | Value.int n => intStr n
  | Value.float q => intStr q.num ++ "/" ++ natStr q.den
  | Value.bool b => if b then "True" else "False"
  | Value.date n => "datetime(" ++ natStr n ++ ")"

/-- Model of Python `str.strip` on strings. -/
def stripStr (s : String) : String :=
  String.mk (stripChars s.data)

/-- Translation of `normalize_value_for_comparison` of `src/main.py`:
non-strings pass through; a string is stripped, lower-cased and cleared of
all whitespace, then parsed as a float when it contains a dot, otherwise
as an int, falling back to the cleaned string. -/
def normalize_value_for_comparison (v : Value) : Value :=
  match v with
  | Value.str s =>
    let cleaned := cleanChars s.data
    if cleaned.contains '.' then
      match pyFloatChars cleaned with
      | some q => Value.float q
      | Option.none => Value.str (String.mk cleaned)
    else
      match pyIntChars cleaned with
      | some n => Value.int n
      | Option.none => Value.str (String.mk cleaned)
  | v => v

/-- Numeric view of a value under Python `==`, as a fraction: ints, floats
and booleans compare numerically across kinds (`True == 1`, `5 == 5.0`). -/
def pyNum : Value → Option (Int × Nat)
  | Value.int n => some (n, 1)
  | Value.float f => some (f.num, f.den)
  | Value.bool b => some (if b then (1, 1) else (0, 1))
  | _ => Option.none

/-- Model of Python `==` on cell values; numeric kinds compare by
cross-multiplication of their fractions. -/
def pyEq (a b : Value) : Bool :=
  match pyNum a, pyNum b with
  | some (xn, xd), some (yn, yd) => decide (xn * (yd : Int) = yn * (xd : Int))
  | _, _ =>
    match a, b with
    | Value.str s, Value.str t => decide (s = t)
    | Value.none, Value.none => true
    | Value.date d, Value.date e => decide (d = e)
    | _, _ => false

/-- The currency literals of line 17 of `src/main.py`, byte-for-byte: the
source file is double-encoded, so the four non-dollar entries are the
mojibake renderings of the euro, pound, yen and rupee signs
(for instance the euro entry is U+00E2 U+201A U+00AC), not the
signs themselves. -/
def currencyLiterals : List String :=
  ["$", "â‚¬", "Â£", "Â¥", "â‚¹"]

/-- Model of Python `str.lower` on strings (ASCII range). -/
def strLower (s : String) : String :=
  String.mk (lowerChars s.data)

/-- Translation of `get_excel_format_type` of `src/main.py`: first match
wins among accounting, date, percentage, currency, numeric, text and
general patterns on the lower-cased format string. -/
def get_excel_format_type (number_format : String) : String :=
  if number_format = "" then "General"
  else
    let fmt := strLower number_format
    if strHas fmt "_(" ∧ strHas fmt "*" ∧ strHas fmt ")" then "Accounting"
    else if strHas fmt "yy" ∨ strHas fmt "mm" ∨ strHas fmt "dd" then "Date"
    else if strHas fmt "%" then "Percentage"
    else if currencyLiterals.any (fun c => strHas fmt c) then "Currency"
    else if strHas fmt "0" ∨ strHas fmt "#" then "Numeric"
    else if fmt = "@" then "Text"
    else if fmt = "general" then "General"
    else "Other"


/-- Excel column letters for `k`-style indices below 26. -/
def letterOf (k : Nat) : Char :=
  "ABCDEFGHIJKLMNOPQRSTUVWXYZ".data.getD k 'A'

/-- Bijective base-26 column letters (openpyxl's cell coordinate column
part): 1 is A, 26 is Z, 27 is AA.  Fuel keeps the recursion structural;
the chain `c, (c-1)/26, ...` strictly decreases, so fuel `c` suffices. -/
def colCharsAux : Nat → Nat → List Char
  | 0, _ => []
  | _, 0 => []
  | fuel + 1, c + 1 => colCharsAux fuel (c / 26) ++ [letterOf (c % 26)]

/-- Column letters of a 1-based column index. -/
def colChars (c : Nat) : List Char :=
  colCharsAux c c

/-- Model of openpyxl's `cell.coordinate`: column letters then the row
number, for instance column 1, row 3 is A3. -/
def coordStr (c r : Nat) : String :=
  String.mk (colChars c ++ natChars r)


/-- One sheet as the engine reads it: populated extents, per-cell resolved
value and per-cell display format.  A value read returns `Except` so that
the `try/except` of the engine is observable: `Except.error` models an
unexpected structural error while reading that cell (`Except.ok
Value.none` is simply an empty cell); format reads never fail. -/
structure Sheet where
  maxRow : Nat
  maxCol : Nat
  val : Nat → Nat → Except String Value
  fmt : Nat → Nat → String

/-- A workbook: its sheet names in order and a sheet for each name (the
value view and the format view of the same file are the two members of
one `Sheet`). -/
structure Workbook where
  sheetnames : List String
  sheet : String → Sheet

/-- One Verdict Record, the dictionary appended per compared cell in
`compare_excel_files` (field names follow the Python keys; `FIELD` can
hold the raw header value, which may be Python `None`). -/
structure Record where
  SHEET : String
  CELL : String
  FIELD : Value
  EXPECTED_VALUE : String
  TEST_VALUE : String
  dataTypeResult : String
  dataTypeReason : String
  valueResult : String
  valueReason : String
deriving DecidableEq

/-- What one run surfaces: the results dictionary plus the `st.error` and
`st.warning` messages shown to the user. -/
structure RunOutput where
  results : List (String × List Record)
  errors : List String
  warnings : List String
deriving DecidableEq

/-- Column-major coordinate scan of the engine: outer loop
`range(1, num_cols + 1)`, inner loop `range(3, num_rows + 1)`, as `(column,
row)` pairs. -/
def coordList (numCols numRows : Nat) : List (Nat × Nat) :=
  (List.range' 1 numCols).flatMap (fun c => (List.range' 3 (numRows - 2)).map (fun r => (c, r)))

/-- Run one cell step after another, as the Python loop body does inside
`try`: a failing step aborts the scan and reports the error; the records
already produced stay (they were appended to the results list in place). -/
def scanCells (step : Nat × Nat → Except String (Option Record)) :
    List (Nat × Nat) → List Record × Option String
  | [] => ([], Option.none)
  | p :: ps =>
    match step p with
    | Except.error e => ([], some e)
    | Except.ok Option.none => scanCells step ps
    | Except.ok (some rec) =>
      let rest := scanCells step ps
      (rec :: rest.1, rest.2)

/-- Header reads of line 58 of `src/main.py` in column order; the first
failing read aborts the comprehension. -/
def buildHeadersList (sh : Sheet) : List Nat → Except String (List (Nat × Value))
  | [] => Except.ok []
  | c :: cs =>
    match sh.val 3 c with
    | Except.error e => Except.error e
    | Except.ok v =>
      match buildHeadersList sh cs with
      | Except.error e => Except.error e
      | Except.ok t => Except.ok ((c, v) :: t)

/-- Line 58 of `src/main.py`: `headers = {c: ws_in_val.cell(row=3,
column=c).value for c in range(1, num_cols + 1)}` — every column index of
the scanned range is a key, possibly mapped to `None`. -/
def buildHeaders (sh : Sheet) (numCols : Nat) : Except String (List (Nat × Value)) :=
  buildHeadersList sh (List.range' 1 numCols)

/-- Python `headers.get(c, f"Col_{c}")`: the stored value when the key is
present (even when that value is `None`), the synthetic label otherwise. -/
def headersGet (hs : List (Nat × Value)) (c : Nat) : Value :=
  match hs.lookup c with
  | some v => v
  | Option.none => Value.str ("Col_" ++ natStr c)

/-- Line 80-81 of `src/main.py`. -/
def get_mismatch_reason (template_val output_val : Value) : String :=
  "The template value is `" ++ pyStr template_val ++ "`, but the output has `" ++ pyStr output_val ++ "`."

/-- The loop body of lines 84-108 of `src/main.py` at one `(column, row)`
coordinate of a sheet present in both workbooks. -/
def normalStep (iSh oSh : Sheet) (name : String) (headers : List (Nat × Value)) :
    Nat × Nat → Except String (Option Record) :=
  fun p => do
    let t_val ← iSh.val p.2 p.1
    let o_val ← oSh.val p.2 p.1
    if t_val = Value.none ∧ o_val = Value.none then return Option.none
    else if t_val = Value.none ∨ stripStr (pyStr t_val) = "" then return Option.none
    else
      let t_type := get_excel_format_type (iSh.fmt p.2 p.1)
      let o_type := get_excel_format_type (oSh.fmt p.2 p.1)
      let dtype_res := if t_type = o_type then "Correct" else "Wrong"
      let dtype_reason :=
        if t_type = o_type then "Data types match"
        else "Template type is `" ++ t_type ++ "`, but output is `" ++ o_type ++ "`."
      let is_match := pyEq (normalize_value_for_comparison t_val) (normalize_value_for_comparison o_val)
      let val_res := if is_match then "Correct" else "Wrong"
      let val_reason := if is_match then "Values match" else get_mismatch_reason t_val o_val
      let dtype_res2 := if p.2 = 3 then "N/A" else dtype_res
      let dtype_reason2 := if p.2 = 3 then "Header row - no type check" else dtype_reason
      return some (Record.mk name (coordStr p.1 p.2) (headersGet headers p.1)
        (pyStr t_val) (pyStr o_val) dtype_res2 dtype_reason2 val_res val_reason)

/-- The loop body of lines 62-72 of `src/main.py` at one coordinate of a
template sheet that is missing from the output workbook. -/
def missingStep (sh : Sheet) (name : String) (headers : List (Nat × Value)) :
    Nat × Nat → Except String (Option Record) :=
  fun p => do
    let t_val ← sh.val p.2 p.1
    if t_val = Value.none ∨ stripStr (pyStr t_val) = "" then return Option.none
    else
      return some (Record.mk name (coordStr p.1 p.2) (headersGet headers p.1)
        (pyStr t_val) "N/A (Sheet Missing)" "Wrong"
        ("Sheet '" ++ name ++ "' not in output.") "Wrong"
        ("Sheet '" ++ name ++ "' not in output."))

/-- The records of one template sheet's scan and the error that stopped
it, if any: headers are read first, then either the missing-sheet loop or
the normal comparison loop runs. -/
def sheetScan (iwb owb : Workbook) (name : String) : List Record × Option String :=
  let sh := iwb.sheet name
  match buildHeaders sh sh.maxCol with
  | Except.error e => ([], some e)
  | Except.ok headers =>
    if name ∈ owb.sheetnames then
      scanCells (normalStep sh (owb.sheet name) name headers) (coordList sh.maxCol sh.maxRow)
    else
      scanCells (missingStep sh name headers) (coordList sh.maxCol sh.maxRow)

/-- The warning of line 61 of `src/main.py`. -/
def missingMsg (name : String) : String :=
  "Sheet '" ++ name ++ "' from the template is MISSING in the output file."

/-- The warning of line 110 of `src/main.py`. -/
def procErrMsg (name e : String) : String :=
  "Error processing sheet '" ++ name ++ "': " ++ e

/-- Records and user-visible warnings of one iteration of the sheet loop
(lines 53-111 of `src/main.py`).  A header-read failure jumps to `except`
before the missing-sheet warning would print; otherwise the missing-sheet
warning (if any) precedes the scan and the error warning follows it. -/
def processOneSheet (iwb owb : Workbook) (name : String) : List Record × List String :=
  let sh := iwb.sheet name
  match buildHeaders sh sh.maxCol with
  | Except.error e => ([], [procErrMsg name e])
  | Except.ok headers =>
    if name ∈ owb.sheetnames then
      let scanned := scanCells (normalStep sh (owb.sheet name) name headers) (coordList sh.maxCol sh.maxRow)
      (scanned.1, match scanned.2 with | some e => [procErrMsg name e] | Option.none => [])
    else
      let scanned := scanCells (missingStep sh name headers) (coordList sh.maxCol sh.maxRow)
      (scanned.1, missingMsg name ::
        (match scanned.2 with | some e => [procErrMsg name e] | Option.none => []))

/-- Python dictionary assignment `d[k] = v`: replace in place when the key
exists, append otherwise. -/
def dictSet (d : List (String × List Record)) (k : String) (v : List Record) :
    List (String × List Record) :=
  if (d.lookup k).isSome then d.map (fun p => if p.1 = k then (k, v) else p)
  else d ++ [(k, v)]

/-- The error of line 48 of `src/main.py`. -/
def loadErrMsg (e : String) : String :=
  "Error: Could not load Excel files. Details: " ++ e

/-- Translation of `compare_excel_files` of `src/main.py`.  The two
arguments are the outcomes of `openpyxl.load_workbook` on the input and
output files (the value view and format view of one file load together and
are one `Workbook`); a load failure surfaces `st.error` and returns the
empty dictionary.  Otherwise every template sheet is processed in order
inside its own `try/except`. -/
def compare_excel_files (input_file output_file : Except String Workbook) : RunOutput :=
  match input_file, output_file with
  | Except.error e, _ => RunOutput.mk [] [loadErrMsg e] []
  | Except.ok _, Except.error e => RunOutput.mk [] [loadErrMsg e] []
  | Except.ok iwb, Except.ok owb =>
    iwb.sheetnames.foldl
      (fun acc name =>
        let proc := processOneSheet iwb owb name
        RunOutput.mk (dictSet acc.results name proc.1) acc.errors (acc.warnings ++ proc.2))
      (RunOutput.mk [] [] [])

/-- Line 119 of `src/main.py`: flatten the results dictionary into the
report's row list. -/
def flattenResults (results : List (String × List Record)) : List Record :=
  results.flatMap (fun p => p.2)

/-- The rows counted for the data-type dimension: those whose data-type
result is not `N/A` (line 124 of `src/main.py`). -/
def dtypeRows (rows : List Record) : List Record :=
  rows.filter (fun r => decide (r.dataTypeResult ≠ "N/A"))

/-- Line 125: the number of data-type checks. -/
def total_dtype_checks (rows : List Record) : Nat :=
  (dtypeRows rows).length

/-- Line 127: the number of correct data-type checks. -/
def dtype_correct (rows : List Record) : Nat :=
  ((dtypeRows rows).filter (fun r => decide (r.dataTypeResult = "Correct"))).length

/-- Line 128: the number of correct value checks. -/
def value_correct (rows : List Record) : Nat :=
  (rows.filter (fun r => decide (r.valueResult = "Correct"))).length

/-- Line 130 of `src/main.py`: data-type accuracy in percent, guarded so
that a zero total yields 100 instead of a division by zero. -/
def dtype_accuracy (rows : List Record) : ℚ :=
  if 0 < total_dtype_checks rows then
    (dtype_correct rows : ℚ) / (total_dtype_checks rows : ℚ) * 100
  else 100

/-- Line 131 of `src/main.py`: value accuracy in percent, same guard. -/
def value_accuracy (rows : List Record) : ℚ :=
  if 0 < rows.length then (value_correct rows : ℚ) / (rows.length : ℚ) * 100
  else 100

/-- Lines 133-134: error counts per dimension. -/
def dtype_errors (rows : List Record) : Nat :=
  total_dtype_checks rows - dtype_correct rows

/-- Line 134. -/
def value_errors (rows : List Record) : Nat :=
  rows.length - value_correct rows

/-- The summary numbers `generate_excel_report` of `src/main.py` computes
(lines 115-134); the function returns `None` without a report when the
flattened row list is empty (line 120). -/
def generate_excel_report (results : List (String × List Record)) :
    Option (ℚ × ℚ × Nat × Nat) :=
  let all_rows := flattenResults results
  if all_rows = [] then Option.none
  else some (dtype_accuracy all_rows, value_accuracy all_rows,
    dtype_errors all_rows, value_errors all_rows)

/-- A format map assigning every cell the default General format. -/
def fmtAllGeneral : Nat → Nat → String := fun _ _ => "General"

/-- Template sheet whose cell A4 raises on read (sheet-error scenario). -/
def sheetT1 : Sheet :=
  Sheet.mk 4 1
    (fun r c =>
      if r = 3 ∧ c = 1 then Except.ok (Value.str "H")
      else if r = 4 ∧ c = 1 then Except.error "boom"
      else Except.ok Value.none)
    fmtAllGeneral

/-- Output sheet matching `sheetT1` at the header cell. -/
def sheetO1 : Sheet :=
  Sheet.mk 4 1
    (fun r c =>
      if r = 3 ∧ c = 1 then Except.ok (Value.str "H") else Except.ok Value.none)
    fmtAllGeneral

/-- A small sheet with one header cell and no failures. -/
def sheetTiny : Sheet :=
  Sheet.mk 3 1
    (fun r c =>
      if r = 3 ∧ c = 1 then Except.ok (Value.str "z") else Except.ok Value.none)
    fmtAllGeneral

/-- Template workbook for the sheet-error scenario: sheet S fails mid-scan,
sheet T is healthy. -/
def iwb1 : Workbook :=
  Workbook.mk ["S", "T"] (fun n => if n = "S" then sheetT1 else sheetTiny)

/-- Output workbook for the sheet-error scenario. -/
def owb1 : Workbook :=
  Workbook.mk ["S", "T"] (fun n => if n = "S" then sheetO1 else sheetTiny)

/-- Template sheet with a single non-blank header cell. -/
def sheetT3 : Sheet :=
  Sheet.mk 3 1
    (fun r c =>
      if r = 3 ∧ c = 1 then Except.ok (Value.str "H") else Except.ok Value.none)
    fmtAllGeneral

/-- Template workbook whose only sheet is missing from `owb3`. -/
def iwb3 : Workbook := Workbook.mk ["S"] (fun _ => sheetT3)

/-- Output workbook with no sheets at all. -/
def owb3 : Workbook := Workbook.mk [] (fun _ => sheetT3)

/-- Template sheet with a header cell and a whitespace-only data cell. -/
def sheetT2 : Sheet :=
  Sheet.mk 4 1
    (fun r c =>
      if r = 3 ∧ c = 1 then Except.ok (Value.str "H")
      else if r = 4 ∧ c = 1 then Except.ok (Value.str " ")
      else Except.ok Value.none)
    fmtAllGeneral

/-- Output sheet with the same header as `sheetT2`. -/
def sheetO2 : Sheet :=
  Sheet.mk 4 1
    (fun r c =>
      if r = 3 ∧ c = 1 then Except.ok (Value.str "H") else Except.ok Value.none)
    fmtAllGeneral

/-- Template workbook for the normal comparison scenarios. -/
def iwb2 : Workbook := Workbook.mk ["S"] (fun _ => sheetT2)

/-- Output workbook for the normal comparison scenarios. -/
def owb2 : Workbook := Workbook.mk ["S"] (fun _ => sheetO2)

/-- Template sheet whose row-3 header cell is empty (`None`) but whose data
cell A4 is populated. -/
def sheetT4 : Sheet :=
  Sheet.mk 4 1
    (fun r c =>
      if r = 4 ∧ c = 1 then Except.ok (Value.str "x") else Except.ok Value.none)
    fmtAllGeneral

/-- Output sheet differing from `sheetT4` at A4. -/
def sheetO4 : Sheet :=
  Sheet.mk 4 1
    (fun r c =>
      if r = 4 ∧ c = 1 then Except.ok (Value.str "y") else Except.ok Value.none)
    fmtAllGeneral

/-- Template workbook for the empty-header scenario. -/
def iwb4 : Workbook := Workbook.mk ["S"] (fun _ => sheetT4)

/-- Output workbook for the empty-header scenario. -/
def owb4 : Workbook := Workbook.mk ["S"] (fun _ => sheetO4)

/-- A workbook with no sheets, used as a well-formed load result. -/
def emptyWb : Workbook := Workbook.mk [] (fun _ => sheetTiny)

theorem charLower_toNat : ∀ n < 91, 65 ≤ n → (Char.ofNat (n + 32)).toNat = n + 32 := by
  decide

theorem charLower_idem (c : Char) : charLower (charLower c) = charLower c := by
  unfold charLower
  by_cases h : 65 ≤ c.toNat ∧ c.toNat ≤ 90
  · rw [if_pos h]
    rw [charLower_toNat c.toNat (by omega) (by omega)]
    rw [if_neg (by omega)]
  · rw [if_neg h, if_neg h]

theorem cleanChars_noWS {l : List Char} : ∀ x ∈ cleanChars l, pyWSChar x = false := by
  intro x hx
  unfold cleanChars removeWSChars at hx
  have h2 := (List.mem_filter.mp hx).2
  simpa using h2

theorem cleanChars_lower_fix {l : List Char} : ∀ x ∈ cleanChars l, charLower x = x := by
  intro x hx
  unfold cleanChars removeWSChars at hx
  have hx2 := (List.mem_filter.mp hx).1
  unfold lowerChars at hx2
  obtain ⟨y, _, rfl⟩ := List.mem_map.mp hx2
  exact charLower_idem y

theorem dropWhile_all_false {α : Type} {p : α → Bool} :
    ∀ {l : List α}, (∀ x ∈ l, p x = false) → l.dropWhile p = l := by
  intro l h
  cases l with
  | nil => rfl
  | cons a t => simp [List.dropWhile_cons, h a (by simp)]

theorem stripChars_of_noWS {l : List Char} (h : ∀ x ∈ l, pyWSChar x = false) :
    stripChars l = l := by
  unfold stripChars
  rw [dropWhile_all_false h]
  rw [dropWhile_all_false (fun x hx => h x (List.mem_reverse.mp hx))]
  exact List.reverse_reverse l

theorem lowerChars_of_fix {l : List Char} (h : ∀ x ∈ l, charLower x = x) :
    lowerChars l = l := by
  unfold lowerChars
  exact (List.map_congr_left h).trans (List.map_id l)

theorem removeWS_of_noWS {l : List Char} (h : ∀ x ∈ l, pyWSChar x = false) :
    removeWSChars l = l :=
  List.filter_eq_self.mpr (fun a ha => by simp [h a ha])

theorem cleanChars_idem (l : List Char) : cleanChars (cleanChars l) = cleanChars l := by
  show removeWSChars (lowerChars (stripChars (cleanChars l))) = cleanChars l
  rw [stripChars_of_noWS cleanChars_noWS, lowerChars_of_fix cleanChars_lower_fix,
    removeWS_of_noWS cleanChars_noWS]

theorem normalize_str (s : String) : normalize_value_for_comparison (Value.str s) =
    (if (cleanChars s.data).contains '.' then
      match pyFloatChars (cleanChars s.data) with
      | some q => Value.float q
      | Option.none => Value.str (String.mk (cleanChars s.data))
    else match pyIntChars (cleanChars s.data) with
      | some n => Value.int n
      | Option.none => Value.str (String.mk (cleanChars s.data))) := rfl

theorem normalizeValue_idem (v : Value) :
    normalize_value_for_comparison (normalize_value_for_comparison v) =
      normalize_value_for_comparison v := by
  cases v with
  | str s =>
    rw [normalize_str s]
    have hmk : (String.mk (cleanChars s.data)).data = cleanChars s.data := rfl
    by_cases hdot : (cleanChars s.data).contains '.' = true
    · rw [if_pos hdot]
      cases hf : pyFloatChars (cleanChars s.data) with
      | none =>
        rw [normalize_str]
        rw [hmk, cleanChars_idem, if_pos hdot, hf]
      | some q => rfl
    · rw [if_neg hdot]
      cases hi : pyIntChars (cleanChars s.data) with
      | none =>
        rw [normalize_str]
        rw [hmk, cleanChars_idem, if_neg hdot, hi]
      | some n => rfl
  | none => rfl
  | int n => rfl
  | float q => rfl
  | bool b => rfl
  | date d => rfl

theorem natCharsAux_congr : ∀ f1 f2 n : Nat, n < f1 → n < f2 →
    natCharsAux f1 n = natCharsAux f2 n := by
  intro f1
  induction f1 with
  | zero => intro f2 n h1 _; omega
  | succ k ih =>
    intro f2 n h1 h2
    cases f2 with
    | zero => omega
    | succ j =>
      simp only [natCharsAux]
      by_cases h : n < 10
      · rw [if_pos h, if_pos h]
      · rw [if_neg h, if_neg h]
        have hd : n / 10 < n := Nat.div_lt_self (by omega) (by omega)
        rw [ih j (n / 10) (by omega) (by omega)]

theorem natChars_eq (n : Nat) : natChars n =
    if n < 10 then [digitOf n] else natChars (n / 10) ++ [digitOf (n % 10)] := by
  show natCharsAux (n + 1) n = _
  simp only [natCharsAux]
  by_cases h : n < 10
  · rw [if_pos h, if_pos h]
  · rw [if_neg h, if_neg h]
    have hd : n / 10 < n := Nat.div_lt_self (by omega) (by omega)
    have : natCharsAux n (n / 10) = natCharsAux (n / 10 + 1) (n / 10) :=
      natCharsAux_congr n (n / 10 + 1) (n / 10) (by omega) (by omega)
    rw [this]
    rfl

theorem natChars_ne_nil (n : Nat) : natChars n ≠ [] := by
  rw [natChars_eq]
  split <;> simp

theorem digitOf_dig : ∀ k < 10, digChar (digitOf k) = true := by decide

theorem digitOf_inj : ∀ a < 10, ∀ b < 10, digitOf a = digitOf b → a = b := by decide

theorem natChars_digits (n : Nat) : ∀ x ∈ natChars n, digChar x = true := by
  induction n using Nat.strong_induction_on with
  | _ n ih =>
    by_cases h : n < 10
    · rw [natChars_eq, if_pos h]
      intro x hx
      simp at hx
      subst hx
      exact digitOf_dig n h
    · rw [natChars_eq, if_neg h]
      intro x hx
      rcases List.mem_append.mp hx with h1 | h2
      · exact ih (n / 10) (Nat.div_lt_self (by omega) (by omega)) x h1
      · simp at h2
        subst h2
        exact digitOf_dig (n % 10) (Nat.mod_lt n (by omega))

theorem natChars_inj : ∀ m n : Nat, natChars m = natChars n → m = n := by
  intro m
  induction m using Nat.strong_induction_on with
  | _ m ih =>
    intro n h
    by_cases hm : m < 10 <;> by_cases hn : n < 10
    · rw [natChars_eq m, if_pos hm, natChars_eq n, if_pos hn] at h
      simp at h
      exact digitOf_inj m hm n hn h
    · rw [natChars_eq m, if_pos hm, natChars_eq n, if_neg hn] at h
      exfalso
      have hlen := congrArg List.length h
      rw [List.length_append, List.length_singleton, List.length_singleton] at hlen
      have hpos := List.length_pos.mpr (natChars_ne_nil (n / 10))
      omega
    · rw [natChars_eq m, if_neg hm, natChars_eq n, if_pos hn] at h
      exfalso
      have hlen := congrArg List.length h
      rw [List.length_append, List.length_singleton, List.length_singleton] at hlen
      have hpos := List.length_pos.mpr (natChars_ne_nil (m / 10))
      omega
    · rw [natChars_eq m, if_neg hm, natChars_eq n, if_neg hn] at h
      have h' := congrArg List.reverse h
      simp only [List.reverse_append, List.reverse_cons, List.reverse_nil,
        List.nil_append, List.cons_append, List.singleton_append] at h'
      rw [List.cons.injEq] at h'
      obtain ⟨h1, h2⟩ := h'
      have hmod : m % 10 = n % 10 :=
        digitOf_inj (m % 10) (Nat.mod_lt m (by omega)) (n % 10) (Nat.mod_lt n (by omega)) h1
      have hrev : natChars (m / 10) = natChars (n / 10) := by
        rw [← List.reverse_reverse (natChars (m / 10)), h2, List.reverse_reverse]
      have hdiv : m / 10 = n / 10 :=
        ih (m / 10) (Nat.div_lt_self (by omega) (by omega)) (n / 10) hrev
      omega

/-- Upper-case ASCII letter test. -/
def upChar (c : Char) : Bool :=
  decide (65 ≤ c.toNat ∧ c.toNat ≤ 90)

theorem letterOf_up : ∀ k < 26, upChar (letterOf k) = true := by decide

theorem letterOf_inj : ∀ a < 26, ∀ b < 26, letterOf a = letterOf b → a = b := by decide

theorem digChar_not_up {c : Char} (h : digChar c = true) : upChar c = false := by
  unfold digChar at h
  unfold upChar
  simp at h ⊢
  omega

theorem colCharsAux_congr : ∀ f1 f2 c : Nat, c ≤ f1 → c ≤ f2 →
    colCharsAux f1 c = colCharsAux f2 c := by
  intro f1
  induction f1 with
  | zero =>
    intro f2 c h1 _
    have hc : c = 0 := by omega
    subst hc
    cases f2 <;> rfl
  | succ k ih =>
    intro f2 c h1 h2
    cases c with
    | zero => cases f2 <;> rfl
    | succ c' =>
      cases f2 with
      | zero => omega
      | succ j =>
        simp only [colCharsAux]
        have hd : c' / 26 ≤ c' := Nat.div_le_self c' 26
        rw [ih j (c' / 26) (by omega) (by omega)]

theorem colChars_succ (c : Nat) :
    colChars (c + 1) = colChars (c / 26) ++ [letterOf (c % 26)] := by
  show colCharsAux (c + 1) (c + 1) = _
  simp only [colCharsAux]
  have hd : c / 26 ≤ c := Nat.div_le_self c 26
  rw [colCharsAux_congr c (c / 26) (c / 26) (by omega) (by omega)]
  rfl

theorem colChars_ne_nil (c : Nat) (h : c ≠ 0) : colChars c ≠ [] := by
  cases c with
  | zero => omega
  | succ c' =>
    rw [colChars_succ]
    simp

theorem colChars_upper (c : Nat) : ∀ x ∈ colChars c, upChar x = true := by
  induction c using Nat.strong_induction_on with
  | _ c ih =>
    cases c with
    | zero => intro x hx; simp [colChars, colCharsAux] at hx
    | succ c' =>
      rw [colChars_succ]
      intro x hx
      rcases List.mem_append.mp hx with h1 | h2
      · exact ih (c' / 26) (by have := Nat.div_le_self c' 26; omega) x h1
      · simp at h2
        subst h2
        exact letterOf_up (c' % 26) (Nat.mod_lt c' (by omega))

theorem colChars_inj : ∀ m n : Nat, colChars m = colChars n → m = n := by
  intro m
  induction m using Nat.strong_induction_on with
  | _ m ih =>
    intro n h
    cases m with
    | zero =>
      cases n with
      | zero => rfl
      | succ n' => exact absurd h.symm (colChars_ne_nil (n' + 1) (by omega))
    | succ m' =>
      cases n with
      | zero => exact absurd h (colChars_ne_nil (m' + 1) (by omega))
      | succ n' =>
        rw [colChars_succ m', colChars_succ n'] at h
        have h' := congrArg List.reverse h
        simp only [List.reverse_append, List.reverse_cons, List.reverse_nil,
          List.nil_append, List.cons_append, List.singleton_append] at h'
        rw [List.cons.injEq] at h'
        obtain ⟨h1, h2⟩ := h'
        have hmod : m' % 26 = n' % 26 :=
          letterOf_inj (m' % 26) (Nat.mod_lt m' (by omega)) (n' % 26) (Nat.mod_lt n' (by omega)) h1
        have hrev : colChars (m' / 26) = colChars (n' / 26) := by
          rw [← List.reverse_reverse (colChars (m' / 26)), h2, List.reverse_reverse]
        have hdiv : m' / 26 = n' / 26 :=
          ih (m' / 26) (by have := Nat.div_le_self m' 26; omega) (n' / 26) hrev
        omega

theorem takeWhile_split {p : Char → Bool} : ∀ (l d : List Char),
    (∀ x ∈ l, p x = true) → (∀ x ∈ d, p x = false) →
    (l ++ d).takeWhile p = l ∧ (l ++ d).dropWhile p = d := by
  intro l
  induction l with
  | nil =>
    intro d _ hd
    cases d with
    | nil => exact ⟨rfl, rfl⟩
    | cons a t =>
      simp only [List.nil_append, List.takeWhile_cons, List.dropWhile_cons,
        hd a (by simp)]
      exact ⟨rfl, rfl⟩
  | cons a t ih =>
    intro d hl hd
    have ha : p a = true := hl a (by simp)
    have iht := ih d (fun x hx => hl x (by simp [hx])) hd
    simp only [List.cons_append, List.takeWhile_cons, List.dropWhile_cons, ha]
    simp only [iht.1, iht.2]
    exact ⟨rfl, rfl⟩

theorem letters_digits_inj {l1 l2 d1 d2 : List Char}
    (hl1 : ∀ x ∈ l1, upChar x = true) (hl2 : ∀ x ∈ l2, upChar x = true)
    (hd1 : ∀ x ∈ d1, digChar x = true) (hd2 : ∀ x ∈ d2, digChar x = true)
    (h : l1 ++ d1 = l2 ++ d2) : l1 = l2 ∧ d1 = d2 := by
  have t1 := takeWhile_split l1 d1 hl1 (fun x hx => digChar_not_up (hd1 x hx))
  have t2 := takeWhile_split l2 d2 hl2 (fun x hx => digChar_not_up (hd2 x hx))
  constructor
  · rw [← t1.1, ← t2.1, h]
  · rw [← t1.2, ← t2.2, h]

theorem coordStr_inj {c1 r1 c2 r2 : Nat} (h : coordStr c1 r1 = coordStr c2 r2) :
    c1 = c2 ∧ r1 = r2 := by
  unfold coordStr at h
  injection h with h
  obtain ⟨h1, h2⟩ := letters_digits_inj (colChars_upper c1) (colChars_upper c2)
    (natChars_digits r1) (natChars_digits r2) h
  exact ⟨colChars_inj c1 c2 h1, natChars_inj r1 r2 h2⟩

theorem scanCells_mem {step : Nat × Nat → Except String (Option Record)} :
    ∀ {ps : List (Nat × Nat)} {rec : Record}, rec ∈ (scanCells step ps).1 →
      ∃ p, p ∈ ps ∧ step p = Except.ok (some rec) := by
  intro ps
  induction ps with
  | nil => intro rec h; simp [scanCells] at h
  | cons p ps ih =>
    intro rec h
    cases hs : step p with
    | error e => simp [scanCells, hs] at h
    | ok o =>
      cases o with
      | none =>
        simp only [scanCells, hs] at h
        obtain ⟨p', hp', hstep⟩ := ih h
        exact ⟨p', by simp [hp'], hstep⟩
      | some r =>
        simp only [scanCells, hs, List.mem_cons] at h
        rcases h with rfl | h
        · exact ⟨p, by simp, hs⟩
        · obtain ⟨p', hp', hstep⟩ := ih h
          exact ⟨p', by simp [hp'], hstep⟩

theorem scanCells_ok {step : Nat × Nat → Except String (Option Record)} :
    ∀ {ps : List (Nat × Nat)}, (∀ p ∈ ps, (step p).isOk = true) →
      scanCells step ps =
        (ps.filterMap (fun p => match step p with
          | Except.ok o => o
          | Except.error _ => Option.none), Option.none) := by
  intro ps
  induction ps with
  | nil => intro _; rfl
  | cons p ps ih =>
    intro h
    have hp := h p (by simp)
    have hps := ih (fun p' hp' => h p' (by simp [hp']))
    cases hs : step p with
    | error e => rw [hs] at hp; simp [Except.isOk, Except.toBool] at hp
    | ok o =>
      cases o with
      | none => simp only [scanCells, hs, List.filterMap_cons, hps]
      | some r => simp only [scanCells, hs, List.filterMap_cons, hps]

theorem filterMap_filter_unique {α β : Type} [DecidableEq β] {ps : List α} {f : α → Option β}
    {q : β → Bool} {a : α} (hnd : ps.Nodup) (ha : a ∈ ps)
    (hq : ∀ b, f a = some b → q b = true)
    (hother : ∀ x ∈ ps, x ≠ a → ∀ b, f x = some b → q b = false) :
    (ps.filterMap f).filter q = (f a).toList := by
  induction ps with
  | nil => simp at ha
  | cons x xs ih =>
    rw [List.filterMap_cons]
    rcases List.mem_cons.mp ha with rfl | hmem
    · have hxs : ∀ b' ∈ xs.filterMap f, q b' = false := by
        intro b' hb'
        obtain ⟨x', hx', hfx'⟩ := List.mem_filterMap.mp hb'
        have hne : x' ≠ a := fun he => (List.nodup_cons.mp hnd).1 (he ▸ hx')
        exact hother x' (by simp [hx']) hne b' hfx'
      have hnil : (xs.filterMap f).filter q = [] :=
        List.filter_eq_nil.mpr (by intro b hb; simp [hxs b hb])
      cases hf : f a with
      | none => simp [hnil]
      | some b =>
        simp only [List.filter_cons, hq b hf, hnil, Option.toList]
        rfl
    · have hxa : x ≠ a := fun he => (List.nodup_cons.mp hnd).1 (he ▸ hmem)
      have ihh := ih (List.nodup_cons.mp hnd).2 hmem
        (fun x' hx' hne => hother x' (by simp [hx']) hne)
      cases hf : f x with
      | none => exact ihh
      | some b =>
        have hqb : q b = false := hother x (by simp) hxa b hf
        simp only [List.filter_cons, hqb, ihh]
        simp

theorem mem_coordList {numCols numRows c r : Nat} :
    (c, r) ∈ coordList numCols numRows ↔
      1 ≤ c ∧ c ≤ numCols ∧ 3 ≤ r ∧ r ≤ numRows := by
  unfold coordList
  simp only [List.mem_flatMap, List.mem_map, List.mem_range'_1, Prod.mk.injEq]
  constructor
  · rintro ⟨c', ⟨hc1, hc2⟩, r', ⟨hr1, hr2⟩, rfl, rfl⟩
    omega
  · rintro ⟨h1, h2, h3, h4⟩
    exact ⟨c, ⟨h1, by omega⟩, r, ⟨h3, by omega⟩, rfl, rfl⟩

theorem coordList_nodup (numCols numRows : Nat) : (coordList numCols numRows).Nodup := by
  unfold coordList
  refine List.nodup_flatMap.mpr ⟨?_, ?_⟩
  · intro c _
    exact (List.nodup_range' 3 (numRows - 2)).map (fun r1 r2 h => by
      simpa using congrArg Prod.snd h)
  · have hnd := List.nodup_range' 1 numCols 1
    refine hnd.imp ?_
    intro c1 c2 hne
    intro x hx1 hx2
    obtain ⟨r1, _, rfl⟩ := List.mem_map.mp hx1
    obtain ⟨r2, _, he⟩ := List.mem_map.mp hx2
    exact hne (by simpa using (congrArg Prod.fst he).symm)

theorem lookup_map_replace (k : String) (v : List Record) :
    ∀ d : List (String × List Record), (d.lookup k).isSome = true →
      ((d.map (fun p => if p.1 = k then (k, v) else p)).lookup k) = some v := by
  intro d
  induction d with
  | nil => intro h; simp at h
  | cons p t ih =>
    intro h
    by_cases hk : p.1 = k
    · simp only [List.map_cons, if_pos hk]
      simp [List.lookup_cons]
    · simp only [List.map_cons, if_neg hk]
      have hne : (k == p.1) = false := by
        simp [Ne.symm hk]
      rw [List.lookup_cons] at h ⊢
      simp only [hne] at h ⊢
      exact ih h

theorem lookup_dictSet_self (d : List (String × List Record)) (k : String) (v : List Record) :
    (dictSet d k v).lookup k = some v := by
  unfold dictSet
  by_cases h : (d.lookup k).isSome = true
  · rw [if_pos h]
    exact lookup_map_replace k v d h
  · rw [if_neg h]
    induction d with
    | nil => simp [List.lookup_cons]
    | cons p t ih =>
      rw [List.lookup_cons] at h
      by_cases hk : k = p.1
      · exfalso
        apply h
        simp [hk]
      · have hne : (k == p.1) = false := by simp [hk]
        rw [List.cons_append, List.lookup_cons]
        simp only [hne] at h ⊢
        exact ih h

theorem lookup_map_other (k k' : String) (v : List Record) (h : k' ≠ k) :
    ∀ t : List (String × List Record),
      ((t.map (fun p => if p.1 = k then (k, v) else p)).lookup k') = t.lookup k' := by
  intro t
  induction t with
  | nil => rfl
  | cons p t ih =>
    by_cases hk : p.1 = k
    · simp only [List.map_cons, if_pos hk]
      rw [List.lookup_cons, List.lookup_cons]
      have h1 : (k' == k) = false := by simp [h]
      have h2 : (k' == p.1) = false := by simp [hk ▸ h]
      simp only [h1, h2]
      exact ih
    · simp only [List.map_cons, if_neg hk]
      rw [List.lookup_cons, List.lookup_cons]
      by_cases hkp : (k' == p.1) = true
      · simp only [hkp]
      · simp only [Bool.not_eq_true] at hkp
        simp only [hkp]
        exact ih

theorem lookup_append_other (k k' : String) (v : List Record) (h : k' ≠ k) :
    ∀ d : List (String × List Record), ((d ++ [(k, v)]).lookup k') = d.lookup k' := by
  intro d
  induction d with
  | nil =>
    show List.lookup k' [(k, v)] = Option.none
    rw [List.lookup_cons]
    have h1 : (k' == k) = false := by simp [h]
    simp [h1]
  | cons p t ih =>
    rw [List.cons_append, List.lookup_cons, List.lookup_cons]
    by_cases hkp : (k' == p.1) = true
    · simp only [hkp]
    · simp only [Bool.not_eq_true] at hkp
      simp only [hkp]
      exact ih

theorem lookup_dictSet_other (d : List (String × List Record)) (k k' : String)
    (v : List Record) (h : k' ≠ k) : (dictSet d k v).lookup k' = d.lookup k' := by
  unfold dictSet
  by_cases hs : (d.lookup k).isSome = true
  · rw [if_pos hs]
    exact lookup_map_other k k' v h d
  · rw [if_neg hs]
    exact lookup_append_other k k' v h d

theorem foldl_results_lookup (iwb owb : Workbook) :
    ∀ (names : List String) (acc : RunOutput) (name : String),
      ((names.foldl (fun acc name =>
          let proc := processOneSheet iwb owb name
          RunOutput.mk (dictSet acc.results name proc.1) acc.errors (acc.warnings ++ proc.2))
        acc).results).lookup name =
      if name ∈ names then some (processOneSheet iwb owb name).1
      else acc.results.lookup name := by
  intro names
  induction names with
  | nil => intro acc name; simp
  | cons n0 rest ih =>
    intro acc name
    rw [List.foldl_cons]
    rw [ih]
    by_cases hr : name ∈ rest
    · rw [if_pos hr, if_pos (by simp [hr])]
    · rw [if_neg hr]
      by_cases hn : name = n0
      · subst hn
        rw [if_pos (by simp)]
        exact lookup_dictSet_self acc.results name (processOneSheet iwb owb name).1
      · rw [if_neg (by simp [hn, hr])]
        exact lookup_dictSet_other acc.results n0 name (processOneSheet iwb owb n0).1 hn

theorem foldl_warnings_eq (iwb owb : Workbook) :
    ∀ (names : List String) (acc : RunOutput),
      (names.foldl (fun acc name =>
          let proc := processOneSheet iwb owb name
          RunOutput.mk (dictSet acc.results name proc.1) acc.errors (acc.warnings ++ proc.2))
        acc).warnings =
      acc.warnings ++ names.flatMap (fun n => (processOneSheet iwb owb n).2) := by
  intro names
  induction names with
  | nil => intro acc; simp
  | cons n0 rest ih =>
    intro acc
    rw [List.foldl_cons, ih]
    simp [List.append_assoc]

theorem compare_results_lookup (iwb owb : Workbook) (name : String) :
    (compare_excel_files (Except.ok iwb) (Except.ok owb)).results.lookup name =
      if name ∈ iwb.sheetnames then some (processOneSheet iwb owb name).1
      else Option.none := by
  have h := foldl_results_lookup iwb owb iwb.sheetnames (RunOutput.mk [] [] []) name
  simpa using h

theorem compare_warnings_eq (iwb owb : Workbook) :
    (compare_excel_files (Except.ok iwb) (Except.ok owb)).warnings =
      iwb.sheetnames.flatMap (fun n => (processOneSheet iwb owb n).2) := by
  have h := foldl_warnings_eq iwb owb iwb.sheetnames (RunOutput.mk [] [] [])
  simpa using h

theorem processOneSheet_fst (iwb owb : Workbook) (name : String) :
    (processOneSheet iwb owb name).1 = (sheetScan iwb owb name).1 := by
  simp only [processOneSheet, sheetScan]
  cases hb : buildHeaders (iwb.sheet name) (iwb.sheet name).maxCol with
  | error e => rfl
  | ok headers =>
    by_cases hm : name ∈ owb.sheetnames
    · simp [hm]
    · simp [hm]

theorem processOneSheet_err (iwb owb : Workbook) (name e : String)
    (h : (sheetScan iwb owb name).2 = some e) :
    procErrMsg name e ∈ (processOneSheet iwb owb name).2 := by
  simp only [sheetScan] at h
  simp only [processOneSheet]
  cases hb : buildHeaders (iwb.sheet name) (iwb.sheet name).maxCol with
  | error e' =>
    rw [hb] at h
    simp at h
    simp [h]
  | ok headers =>
    rw [hb] at h
    by_cases hm : name ∈ owb.sheetnames
    · simp only [if_pos hm] at h ⊢
      simp [h]
    · simp only [if_neg hm] at h ⊢
      simp [h]

theorem buildHeadersList_ok (sh : Sheet) :
    ∀ l : List Nat, (∀ c ∈ l, (sh.val 3 c).isOk = true) →
      ∃ hs, buildHeadersList sh l = Except.ok hs := by
  intro l
  induction l with
  | nil => intro _; exact ⟨[], rfl⟩
  | cons c cs ih =>
    intro h
    have hc := h c (by simp)
    cases hv : sh.val 3 c with
    | error e => rw [hv] at hc; simp [Except.isOk, Except.toBool] at hc
    | ok v =>
      obtain ⟨t, ht⟩ := ih (fun c' hc' => h c' (by simp [hc']))
      exact ⟨(c, v) :: t, by simp [buildHeadersList, hv, ht]⟩

theorem missingStep_eval {sh : Sheet} {name : String} {headers : List (Nat × Value)}
    {c r : Nat} {v : Value} (hv : sh.val r c = Except.ok v)
    (hnb : ¬(v = Value.none ∨ stripStr (pyStr v) = "")) :
    missingStep sh name headers (c, r) = Except.ok (some (Record.mk name (coordStr c r)
      (headersGet headers c) (pyStr v) "N/A (Sheet Missing)" "Wrong"
      ("Sheet '" ++ name ++ "' not in output.") "Wrong"
      ("Sheet '" ++ name ++ "' not in output."))) := by
  simp [missingStep, hv, hnb, Bind.bind, Except.bind, pure, Except.pure]

theorem missingStep_isOk {sh : Sheet} {name : String} {headers : List (Nat × Value)}
    {p : Nat × Nat} (h : (sh.val p.2 p.1).isOk = true) :
    (missingStep sh name headers p).isOk = true := by
  cases hv : sh.val p.2 p.1 with
  | error e => rw [hv] at h; simp [Except.isOk, Except.toBool] at h
  | ok v =>
    by_cases hb : v = Value.none ∨ stripStr (pyStr v) = ""
    · simp [missingStep, hv, hb, Bind.bind, Except.bind, pure, Except.pure, Except.isOk, Except.toBool]
    · simp [missingStep, hv, hb, Bind.bind, Except.bind, pure, Except.pure, Except.isOk, Except.toBool]

theorem missingStep_some {sh : Sheet} {name : String} {headers : List (Nat × Value)}
    {p : Nat × Nat} {rec : Record}
    (h : missingStep sh name headers p = Except.ok (some rec)) :
    ∃ v, sh.val p.2 p.1 = Except.ok v ∧ ¬(v = Value.none ∨ stripStr (pyStr v) = "") ∧
      rec = Record.mk name (coordStr p.1 p.2) (headersGet headers p.1) (pyStr v)
        "N/A (Sheet Missing)" "Wrong" ("Sheet '" ++ name ++ "' not in output.") "Wrong"
        ("Sheet '" ++ name ++ "' not in output.") := by
  cases hv : sh.val p.2 p.1 with
  | error e => simp [missingStep, hv, Bind.bind, Except.bind] at h
  | ok v =>
    by_cases hb : v = Value.none ∨ stripStr (pyStr v) = ""
    · simp [missingStep, hv, hb, Bind.bind, Except.bind, pure, Except.pure] at h
    · refine ⟨v, rfl, hb, ?_⟩
      simp [missingStep, hv, hb, Bind.bind, Except.bind, pure, Except.pure] at h
      exact h.symm

theorem normalStep_some {iSh oSh : Sheet} {name : String} {headers : List (Nat × Value)}
    {p : Nat × Nat} {rec : Record}
    (h : normalStep iSh oSh name headers p = Except.ok (some rec)) :
    ∃ tv, iSh.val p.2 p.1 = Except.ok tv ∧ ¬(tv = Value.none ∨ stripStr (pyStr tv) = "") ∧
      rec.CELL = coordStr p.1 p.2 ∧ rec.FIELD = headersGet headers p.1 ∧
      (p.2 = 3 → rec.dataTypeResult = "N/A") := by
  cases hv : iSh.val p.2 p.1 with
  | error e => simp [normalStep, hv, Bind.bind, Except.bind] at h
  | ok tv =>
    cases ho : oSh.val p.2 p.1 with
    | error e => simp [normalStep, hv, ho, Bind.bind, Except.bind] at h
    | ok ov =>
      by_cases h1 : tv = Value.none ∧ ov = Value.none
      · simp [normalStep, hv, ho, h1, Bind.bind, Except.bind, pure, Except.pure] at h
      · by_cases h2 : tv = Value.none ∨ stripStr (pyStr tv) = ""
        · simp [normalStep, hv, ho, h1, h2, Bind.bind, Except.bind, pure, Except.pure] at h
        · refine ⟨tv, rfl, h2, ?_⟩
          simp [normalStep, hv, ho, h1, h2, Bind.bind, Except.bind, pure, Except.pure] at h
          obtain rfl := h.symm
          refine ⟨rfl, rfl, ?_⟩
          intro h3
          simp [h3]

theorem sheetScan_mem {iwb owb : Workbook} {name : String} {rec : Record}
    (h : rec ∈ (sheetScan iwb owb name).1) :
    ∃ headers p, p ∈ coordList (iwb.sheet name).maxCol (iwb.sheet name).maxRow ∧
      ((name ∈ owb.sheetnames ∧
        normalStep (iwb.sheet name) (owb.sheet name) name headers p = Except.ok (some rec)) ∨
       (name ∉ owb.sheetnames ∧
        missingStep (iwb.sheet name) name headers p = Except.ok (some rec))) := by
  simp only [sheetScan] at h
  cases hb : buildHeaders (iwb.sheet name) (iwb.sheet name).maxCol with
  | error e => rw [hb] at h; simp at h
  | ok headers =>
    simp only [hb] at h
    by_cases hm : name ∈ owb.sheetnames
    · rw [if_pos hm] at h
      obtain ⟨p, hp, hstep⟩ := scanCells_mem h
      exact ⟨headers, p, hp, Or.inl ⟨hm, hstep⟩⟩
    · rw [if_neg hm] at h
      obtain ⟨p, hp, hstep⟩ := scanCells_mem h
      exact ⟨headers, p, hp, Or.inr ⟨hm, hstep⟩⟩

/-- C2: classify (`get_excel_format_type`) is total and deterministic with
currency before digit placeholders, so `"$#,##0.00"` is Currency; but the
four non-dollar currency literals in the source are mojibake (the file is
double-encoded), so a real euro sign U+20AC is NOT recognised: `"€"`
classifies as Other and `"€#,##0.00"` as Numeric, where the claim expects
Currency.  This theorem evaluates the embedded classifier at the dollar
input and at the euro failing inputs. -/
theorem claim_C2_currency_precedence :
    get_excel_format_type "$#,##0.00" = "Currency" ∧
    get_excel_format_type "€" = "Other" ∧
    get_excel_format_type "€#,##0.00" = "Numeric" := by
  decide

/-- C4: for a column whose row-3 template header cell is empty, the emitted
record's FIELD is Python `None`, not the synthetic label: the header
dictionary of line 58 contains every column index as a key (mapped to
`None` for an empty header), so the `.get` default `"Col_<index>"` never
fires.  Evaluation of the engine at a workbook pair whose only sheet has
an empty A3 header and data in A4. -/
theorem claim_C4_field_is_none :
    ((compare_excel_files (Except.ok iwb4) (Except.ok owb4)).results.lookup "S").getD [] =
      [Record.mk "S" "A4" Value.none "x" "y" "Correct" "Data types match" "Wrong"
        "The template value is `x`, but the output has `y`."] ∧
    Value.none ≠ Value.str "Col_1" := by
  decide

/-- C6: if either workbook fails to load, `compare_excel_files` surfaces
the fatal load error and returns the empty results dictionary: no verdict
records are produced and reconciliation is not attempted. -/
theorem claim_C6_fatal_load_error :
    ∀ x y : Except String Workbook,
      ((∃ e, x = Except.error e) ∨ (∃ e, y = Except.error e)) →
      (compare_excel_files x y).results = [] ∧ (compare_excel_files x y).errors ≠ [] := by
  intro x y h
  rcases h with ⟨e, rfl⟩ | ⟨e, rfl⟩
  · exact ⟨rfl, by simp [compare_excel_files]⟩
  · cases x with
    | error e' => exact ⟨rfl, by simp [compare_excel_files]⟩
    | ok iwb => exact ⟨rfl, by simp [compare_excel_files]⟩

/-- Witness for C6 at a concrete failing input load. -/
theorem claim_C6_witness :
    (compare_excel_files (Except.error "bad zip") (Except.ok emptyWb)).results = [] ∧
    (compare_excel_files (Except.error "bad zip") (Except.ok emptyWb)).errors ≠ [] :=
  claim_C6_fatal_load_error (Except.error "bad zip") (Except.ok emptyWb) (Or.inl ⟨"bad zip", rfl⟩)

/-- C7: `normalize_value_for_comparison` is pure and total; non-string
values pass through unchanged, and on the spec's examples it trims,
lower-cases and strips internal whitespace, parses `"12.50"` as the float
1250/100 (the fraction representing 12.5, numerically equal to 25/2 under
Python `==`), parses `"12"` as the int 12, and maps `None` to `None`. -/
theorem claim_C7_normalize_contract :
    (∀ v : Value, (∀ s, v ≠ Value.str s) → normalize_value_for_comparison v = v) ∧
    normalize_value_for_comparison (Value.str "  Foo  Bar ") = Value.str "foobar" ∧
    normalize_value_for_comparison (Value.str "12.50") = Value.float (PyFloat.mk 1250 100) ∧
    pyEq (Value.float (PyFloat.mk 1250 100)) (Value.float (PyFloat.mk 25 2)) = true ∧
    normalize_value_for_comparison (Value.str "12") = Value.int 12 ∧
    normalize_value_for_comparison Value.none = Value.none := by
  refine ⟨?_, by decide, by decide, by decide, by decide, rfl⟩
  intro v hv
  cases v with
  | str s => exact absurd rfl (hv s)
  | none => rfl
  | int n => rfl
  | float q => rfl
  | bool b => rfl
  | date d => rfl

/-- C8: normalization is idempotent: applying
`normalize_value_for_comparison` twice equals applying it once, for every
cell value. -/
theorem claim_C8_normalize_idempotent (v : Value) :
    normalize_value_for_comparison (normalize_value_for_comparison v) =
      normalize_value_for_comparison v :=
  normalizeValue_idem v

theorem accuracy_shape_bounds (c t : Nat) (hct : c ≤ t) :
    0 ≤ (if 0 < t then (c : ℚ) / (t : ℚ) * 100 else 100) ∧
      (if 0 < t then (c : ℚ) / (t : ℚ) * 100 else 100) ≤ 100 := by
  split
  · constructor
    · positivity
    · have ht : (0 : ℚ) < (t : ℚ) := by exact_mod_cast (by assumption : 0 < t)
      have hdiv : (c : ℚ) / (t : ℚ) ≤ 1 := (div_le_one ht).mpr (by exact_mod_cast hct)
      calc (c : ℚ) / (t : ℚ) * 100 ≤ 1 * 100 :=
            mul_le_mul_of_nonneg_right hdiv (by norm_num)
        _ = 100 := one_mul 100
  · norm_num

/-- C10: aggregate accuracy is correct/total × 100 per dimension, with the
division guarded: a zero total yields exactly 100 (never a division by
zero), and both accuracies always lie between 0 and 100. -/
theorem claim_C10_accuracy_guarded (rows : List Record) :
    (dtype_accuracy rows = if total_dtype_checks rows = 0 then (100 : ℚ)
      else (dtype_correct rows : ℚ) / (total_dtype_checks rows : ℚ) * 100) ∧
    (value_accuracy rows = if rows.length = 0 then (100 : ℚ)
      else (value_correct rows : ℚ) / (rows.length : ℚ) * 100) ∧
    0 ≤ dtype_accuracy rows ∧ dtype_accuracy rows ≤ 100 ∧
    0 ≤ value_accuracy rows ∧ value_accuracy rows ≤ 100 := by
  have hd : dtype_correct rows ≤ total_dtype_checks rows :=
    List.length_filter_le _ _
  have hv : value_correct rows ≤ rows.length :=
    List.length_filter_le _ _
  have bd := accuracy_shape_bounds (dtype_correct rows) (total_dtype_checks rows) hd
  have bv := accuracy_shape_bounds (value_correct rows) rows.length hv
  refine ⟨?_, ?_, bd.1, bd.2, bv.1, bv.2⟩
  · by_cases h : total_dtype_checks rows = 0
    · simp [dtype_accuracy, h]
    · simp [dtype_accuracy, h, Nat.pos_of_ne_zero h]
  · by_cases h : rows.length = 0
    · simp [value_accuracy, h]
    · simp [value_accuracy, h, Nat.pos_of_ne_zero h]

/-- C1 (amended): if an unexpected error occurs while processing one sheet,
a warning is surfaced and the remaining sheets are still processed, but the
sheet's partial results are kept, not discarded: the result maps that sheet
to exactly the records emitted before the error (the per-sheet list was
installed in the results dictionary before scanning and appended in
place). -/
theorem claim_C1_sheet_error_keeps_partial :
    ∀ (iwb owb : Workbook) (name e : String),
      name ∈ iwb.sheetnames → (sheetScan iwb owb name).2 = some e →
      (compare_excel_files (Except.ok iwb) (Except.ok owb)).results.lookup name =
        some ((sheetScan iwb owb name).1) ∧
      procErrMsg name e ∈ (compare_excel_files (Except.ok iwb) (Except.ok owb)).warnings ∧
      ∀ n ∈ iwb.sheetnames,
        ((compare_excel_files (Except.ok iwb) (Except.ok owb)).results.lookup n).isSome = true := by
  intro iwb owb name e hmem hscan
  refine ⟨?_, ?_, ?_⟩
  · rw [compare_results_lookup, if_pos hmem, processOneSheet_fst]
  · rw [compare_warnings_eq]
    exact List.mem_flatMap.mpr ⟨name, hmem, processOneSheet_err iwb owb name e hscan⟩
  · intro n hn
    rw [compare_results_lookup, if_pos hn]
    rfl

/-- Counterexample to C1 as stated: in the `iwb1`/`owb1` pair, sheet S's
scan raises at cell A4 ("boom"), yet the returned result still holds the
record produced at A3 before the error — the sheet's records are not
discarded. -/
theorem claim_C1_counterexample :
    (sheetScan iwb1 owb1 "S").2 = some "boom" ∧
    ((compare_excel_files (Except.ok iwb1) (Except.ok owb1)).results.lookup "S").getD [] ≠ [] := by
  decide

/-- Witness for the amended C1 at the concrete erroring pair. -/
theorem claim_C1_witness :
    (compare_excel_files (Except.ok iwb1) (Except.ok owb1)).results.lookup "S" =
      some ((sheetScan iwb1 owb1 "S").1) ∧
    procErrMsg "S" "boom" ∈ (compare_excel_files (Except.ok iwb1) (Except.ok owb1)).warnings ∧
    ∀ n ∈ iwb1.sheetnames,
      ((compare_excel_files (Except.ok iwb1) (Except.ok owb1)).results.lookup n).isSome = true :=
  claim_C1_sheet_error_keeps_partial iwb1 owb1 "S" "boom" (by decide) (by decide)

/-- C3 (amended): on a sheet present in both workbooks, every verdict
record whose cell lies in row 3 carries data-type result N/A; records of a
template sheet missing from the output instead carry Wrong even in row 3
(see the counterexample). -/
theorem claim_C3_header_row_na :
    ∀ (iwb owb : Workbook) (name : String) (l : List Record) (rec : Record) (c : Nat),
      name ∈ owb.sheetnames →
      (compare_excel_files (Except.ok iwb) (Except.ok owb)).results.lookup name = some l →
      rec ∈ l → rec.CELL = coordStr c 3 → rec.dataTypeResult = "N/A" := by
  intro iwb owb name l rec c hout hlook hmem hcell
  rw [compare_results_lookup] at hlook
  by_cases hin : name ∈ iwb.sheetnames
  · rw [if_pos hin] at hlook
    have hl := Option.some.inj hlook
    subst hl
    rw [processOneSheet_fst] at hmem
    obtain ⟨headers, p, _, hcase⟩ := sheetScan_mem hmem
    rcases hcase with ⟨_, hstep⟩ | ⟨hnm, _⟩
    · obtain ⟨tv, _, _, hcellp, _, hrow3⟩ := normalStep_some hstep
      rw [hcellp] at hcell
      exact hrow3 (coordStr_inj hcell).2
    · exact absurd hout hnm
  · rw [if_neg hin] at hlook
    cases hlook

/-- Counterexample to C3 as stated: when the template sheet S is missing
from the output, the verdict emitted for the row-3 header cell A3 carries
data-type result Wrong, not N/A. -/
theorem claim_C3_counterexample :
    ((compare_excel_files (Except.ok iwb3) (Except.ok owb3)).results.lookup "S").getD [] =
      [Record.mk "S" "A3" (Value.str "H") "H" "N/A (Sheet Missing)" "Wrong"
        "Sheet 'S' not in output." "Wrong" "Sheet 'S' not in output."] ∧
    ("Wrong" : String) ≠ "N/A" := by
  decide

/-- Witness for the amended C3: the row-3 record of the present-sheet pair
`iwb2`/`owb2` has data-type result N/A. -/
theorem claim_C3_witness :
    (Record.mk "S" "A3" (Value.str "H") "H" "H" "N/A" "Header row - no type check"
      "Correct" "Values match").dataTypeResult = "N/A" :=
  claim_C3_header_row_na iwb2 owb2 "S"
    [Record.mk "S" "A3" (Value.str "H") "H" "H" "N/A" "Header row - no type check"
      "Correct" "Values match"]
    (Record.mk "S" "A3" (Value.str "H") "H" "H" "N/A" "Header row - no type check"
      "Correct" "Values match")
    1 (by decide) (by decide) (by decide) (by decide)

/-- C9: a verdict record is emitted only for coordinates whose template
cell is non-null and non-blank: whenever the template value at a
coordinate is null or strips to the empty string (in particular when both
sides are null), no record for that coordinate's cell address appears in
that sheet's result list. -/
theorem claim_C9_blank_template_no_record :
    ∀ (iwb owb : Workbook) (name : String) (l : List Record) (r c : Nat) (v : Value),
      (compare_excel_files (Except.ok iwb) (Except.ok owb)).results.lookup name = some l →
      (iwb.sheet name).val r c = Except.ok v →
      (v = Value.none ∨ stripStr (pyStr v) = "") →
      ∀ rec ∈ l, rec.CELL ≠ coordStr c r := by
  intro iwb owb name l r c v hlook hv hblank rec hmem hcell
  rw [compare_results_lookup] at hlook
  by_cases hin : name ∈ iwb.sheetnames
  · rw [if_pos hin] at hlook
    have hl := Option.some.inj hlook
    subst hl
    rw [processOneSheet_fst] at hmem
    obtain ⟨headers, p, _, hcase⟩ := sheetScan_mem hmem
    rcases hcase with ⟨_, hstep⟩ | ⟨_, hstep⟩
    · obtain ⟨tv, htv, hnb, hcellp, _, _⟩ := normalStep_some hstep
      rw [hcellp] at hcell
      obtain ⟨rfl, rfl⟩ := coordStr_inj hcell
      rw [htv] at hv
      exact hnb (Except.ok.inj hv ▸ hblank)
    · obtain ⟨tv, htv, hnb, hrec⟩ := missingStep_some hstep
      have hcellp : rec.CELL = coordStr p.1 p.2 := by rw [hrec]
      rw [hcellp] at hcell
      obtain ⟨rfl, rfl⟩ := coordStr_inj hcell
      rw [htv] at hv
      exact hnb (Except.ok.inj hv ▸ hblank)
  · rw [if_neg hin] at hlook
    cases hlook

/-- Witness for C9: in `iwb2`/`owb2`, cell A4's template value is the
whitespace-only string, and the single emitted record (at A3) is not for
A4. -/
theorem claim_C9_witness :
    (Record.mk "S" "A3" (Value.str "H") "H" "H" "N/A" "Header row - no type check"
      "Correct" "Values match").CELL ≠ coordStr 1 4 :=
  claim_C9_blank_template_no_record iwb2 owb2 "S"
    [Record.mk "S" "A3" (Value.str "H") "H" "H" "N/A" "Header row - no type check"
      "Correct" "Values match"]
    4 1 (Value.str " ") (by decide) rfl (by decide)
    (Record.mk "S" "A3" (Value.str "H") "H" "H" "N/A" "Header row - no type check"
      "Correct" "Values match")
    (by decide)

/-- C5: template-driven sheet policy — for a template sheet absent from
the output workbook, every non-blank template cell in columns 1..max
column, rows 3..max row yields exactly one verdict record (here: the
filtered result list for that cell address is a singleton), with data-type
and value results Wrong, test value "N/A (Sheet Missing)" and reasons
naming the missing sheet; the sheet itself is present in the results
mapping, not skipped.  The error-freeness hypothesis says every cell read
of the template sheet succeeds. -/
theorem claim_C5_missing_sheet_verdicts :
    ∀ (iwb owb : Workbook) (name : String) (c r : Nat) (v : Value),
      name ∈ iwb.sheetnames → name ∉ owb.sheetnames →
      (∀ r' c' : Nat, ((iwb.sheet name).val r' c').isOk = true) →
      1 ≤ c → c ≤ (iwb.sheet name).maxCol → 3 ≤ r → r ≤ (iwb.sheet name).maxRow →
      (iwb.sheet name).val r c = Except.ok v →
      ¬(v = Value.none ∨ stripStr (pyStr v) = "") →
      ∃ headers,
        buildHeaders (iwb.sheet name) (iwb.sheet name).maxCol = Except.ok headers ∧
        (compare_excel_files (Except.ok iwb) (Except.ok owb)).results.lookup name =
          some ((sheetScan iwb owb name).1) ∧
        ((sheetScan iwb owb name).1).filter
            (fun rec => decide (rec.CELL = coordStr c r)) =
          [Record.mk name (coordStr c r) (headersGet headers c) (pyStr v)
            "N/A (Sheet Missing)" "Wrong" ("Sheet '" ++ name ++ "' not in output.")
            "Wrong" ("Sheet '" ++ name ++ "' not in output.")] := by
  intro iwb owb name c r v hmem hmiss hok hc1 hc2 hr1 hr2 hv hnb
  obtain ⟨headers, hh⟩ := buildHeadersList_ok (iwb.sheet name)
    (List.range' 1 (iwb.sheet name).maxCol) (fun c' _ => hok 3 c')
  have hbH : buildHeaders (iwb.sheet name) (iwb.sheet name).maxCol = Except.ok headers := hh
  have hallok : ∀ p ∈ coordList (iwb.sheet name).maxCol (iwb.sheet name).maxRow,
      (missingStep (iwb.sheet name) name headers p).isOk = true :=
    fun p _ => missingStep_isOk (hok p.2 p.1)
  have hscan1 : (sheetScan iwb owb name).1 =
      (coordList (iwb.sheet name).maxCol (iwb.sheet name).maxRow).filterMap
        (fun p => match missingStep (iwb.sheet name) name headers p with
          | Except.ok o => o
          | Except.error _ => Option.none) := by
    simp only [sheetScan, hbH]
    rw [if_neg hmiss]
    rw [scanCells_ok hallok]
  refine ⟨headers, hbH, ?_, ?_⟩
  · rw [compare_results_lookup, if_pos hmem, processOneSheet_fst]
  · have hq : ∀ b, (match missingStep (iwb.sheet name) name headers (c, r) with
        | Except.ok o => o | Except.error _ => Option.none) = some b →
        decide (b.CELL = coordStr c r) = true := by
      intro b hb
      rw [missingStep_eval hv hnb] at hb
      have hb' : some (Record.mk name (coordStr c r) (headersGet headers c) (pyStr v)
          "N/A (Sheet Missing)" "Wrong" ("Sheet '" ++ name ++ "' not in output.")
          "Wrong" ("Sheet '" ++ name ++ "' not in output.")) = some b := hb
      obtain rfl := Option.some.inj hb'
      simp
    have hother : ∀ x ∈ coordList (iwb.sheet name).maxCol (iwb.sheet name).maxRow,
        x ≠ (c, r) → ∀ b, (match missingStep (iwb.sheet name) name headers x with
          | Except.ok o => o | Except.error _ => Option.none) = some b →
        decide (b.CELL = coordStr c r) = false := by
      rintro ⟨x1, x2⟩ _ hne b hb
      cases hs : missingStep (iwb.sheet name) name headers (x1, x2) with
      | error e => rw [hs] at hb; simp at hb
      | ok o =>
        rw [hs] at hb
        have hb2 : o = some b := hb
        rw [hb2] at hs
        obtain ⟨v', _, _, hrec⟩ := missingStep_some hs
        subst hrec
        simp only [decide_eq_false_iff_not]
        intro heq
        have heq' : coordStr x1 x2 = coordStr c r := heq
        obtain ⟨h1, h2⟩ := coordStr_inj heq'
        exact hne (by rw [h1, h2])
    have hres := filterMap_filter_unique
      (coordList_nodup (iwb.sheet name).maxCol (iwb.sheet name).maxRow)
      (mem_coordList.mpr ⟨hc1, hc2, hr1, hr2⟩) hq hother
    rw [hscan1, hres, missingStep_eval hv hnb]
    rfl

/-- Witness for C5 at the concrete missing-sheet pair `iwb3`/`owb3` and
the non-blank header cell A3. -/
theorem claim_C5_witness :
    ∃ headers,
      buildHeaders (iwb3.sheet "S") (iwb3.sheet "S").maxCol = Except.ok headers ∧
      (compare_excel_files (Except.ok iwb3) (Except.ok owb3)).results.lookup "S" =
        some ((sheetScan iwb3 owb3 "S").1) ∧
      ((sheetScan iwb3 owb3 "S").1).filter
          (fun rec => decide (rec.CELL = coordStr 1 3)) =
        [Record.mk "S" (coordStr 1 3) (headersGet headers 1) (pyStr (Value.str "H"))
          "N/A (Sheet Missing)" "Wrong" ("Sheet '" ++ "S" ++ "' not in output.")
          "Wrong" ("Sheet '" ++ "S" ++ "' not in output.")] :=
  claim_C5_missing_sheet_verdicts iwb3 owb3 "S" 1 3 (Value.str "H")
    (by decide) (by decide)
    (fun r' c' => by
      show ((if r' = 3 ∧ c' = 1 then Except.ok (Value.str "H")
        else Except.ok Value.none) : Except String Value).isOk = true
      split <;> rfl)
    (by decide) (by decide) (by decide) (by decide) rfl (by decide)
